import Mathlib

/-
Shallow embedding of the Clutch consent-form component
(src/unnamed/part_000, the current TypeScript implementation of
src/app/components/ClutchConsentForm.tsx).

The component keeps one mutable form record and four routines:
upload validation (handleFileUpload), the AI extraction pipeline
(extractInformation), VIN enrichment (decodeVIN) and the document
renderer (generatePDF).  Each routine's state transition is embedded
below as a pure function; the external calls (fetch, FileReader,
canvas) are modelled by explicit outcome values.
-/

set_option maxRecDepth 4000

/-- FormRecord: the single mutable form-state record (FormDataState in
part_000, lines 14-16 and 40-47): five free-text fields plus a date. -/
structure FormRecord where
  fullName : String
  address : String
  year : String
  makeModel : String
  vin : String
  date : String
deriving Repr, DecidableEq

/-! ## JSON values and a model of JS JSON.parse

The extraction pipeline calls JSON.parse on the cleaned model response.
We embed JSON values and a parser for the JSON grammar: strings with the
standard escapes, numbers kept as their lexeme (their numeric value is
never inspected by the component), arrays, objects in document order
with duplicate keys kept (JS property assignment makes the last
duplicate win, see objLookupLast). -/

inductive Json where
  | null : Json
  | bool : Bool → Json
  | num : String → Json
  | str : String → Json
  | arr : List Json → Json
  | obj : List (String × Json) → Json

/-- JSON insignificant whitespace: space, tab, line feed, carriage return. -/
def skipWs : List Char → List Char
  | [] => []
  | c :: rest =>
    if c = ' ' ∨ c = '\t' ∨ c = '\n' ∨ c = '\r' then skipWs rest else c :: rest

def hexVal (c : Char) : Option Nat :=
  if '0' ≤ c ∧ c ≤ '9' then some (c.toNat - '0'.toNat)
  else if 'a' ≤ c ∧ c ≤ 'f' then some (c.toNat - 'a'.toNat + 10)
  else if 'A' ≤ c ∧ c ≤ 'F' then some (c.toNat - 'A'.toNat + 10)
  else none

/-- Single-character JSON escapes.  backspace is U+0008, form feed U+000C. -/
def escChar (c : Char) : Option Char :=
  if c = '"' then some '"'
  else if c = '\\' then some '\\'
  else if c = '/' then some '/'
  else if c = 'b' then some (Char.ofNat 8)
  else if c = 'f' then some (Char.ofNat 12)
  else if c = 'n' then some '\n'
  else if c = 'r' then some '\r'
  else if c = 't' then some '\t'
  else none

/-- Body of a JSON string literal, after the opening quote; returns the
decoded string and the input after the closing quote.  Raw control
characters below U+0020 are rejected, as JSON.parse does.  A \u escape
decodes its four hex digits (lone surrogates are out of scope: no claim
exercises them). -/
def parseStringAux : Nat → List Char → List Char → Option (String × List Char)
  | 0, _, _ => none
  | fuel + 1, acc, cs =>
    match cs with
    | [] => none
    | '"' :: rest => some (String.mk acc.reverse, rest)
    | '\\' :: 'u' :: a :: b :: c :: d :: rest =>
      match hexVal a, hexVal b, hexVal c, hexVal d with
      | some ha, some hb, some hc, some hd =>
        parseStringAux fuel (Char.ofNat (((ha * 16 + hb) * 16 + hc) * 16 + hd) :: acc) rest
      | _, _, _, _ => none
    | '\\' :: e :: rest =>
      match escChar e with
      | some c2 => parseStringAux fuel (c2 :: acc) rest
      | none => none
    | c2 :: rest =>
      if c2.toNat < 32 then none else parseStringAux fuel (c2 :: acc) rest

def takeDigits : List Char → List Char × List Char
  | [] => ([], [])
  | c :: rest =>
    if c.isDigit then
      match takeDigits rest with
      | (ds, r) => (c :: ds, r)
    else ([], c :: rest)

/-- JSON number lexeme: -? (0 | [1-9][0-9]*) (.[0-9]+)? ([eE][+-]?[0-9]+)?.
Returns the lexeme characters and the rest of the input. -/
def parseNumberLex (cs : List Char) : Option (List Char × List Char) :=
  let signAndRest : List Char × List Char :=
    match cs with
    | '-' :: r => (['-'], r)
    | _ => ([], cs)
  match signAndRest with
  | (sign, cs1) =>
    let intAndRest : Option (List Char × List Char) :=
      match cs1 with
      | '0' :: r1 =>
        match r1 with
        | c :: _ => if c.isDigit then none else some (['0'], r1)
        | [] => some (['0'], [])
      | c :: r1 =>
        if c.isDigit then
          match takeDigits r1 with
          | (ds, r2) => some (c :: ds, r2)
        else none
      | [] => none
    match intAndRest with
    | none => none
    | some (ip, cs2) =>
      let fracAndRest : Option (List Char × List Char) :=
        match cs2 with
        | '.' :: r1 =>
          match takeDigits r1 with
          | ([], _) => none
          | (ds, r2) => some ('.' :: ds, r2)
        | _ => some ([], cs2)
      match fracAndRest with
      | none => none
      | some (fp, cs3) =>
        let expAndRest : Option (List Char × List Char) :=
          match cs3 with
          | e :: r1 =>
            if e = 'e' ∨ e = 'E' then
              match r1 with
              | s :: r2 =>
                if s = '+' ∨ s = '-' then
                  match takeDigits r2 with
                  | ([], _) => none
                  | (ds, r3) => some (e :: s :: ds, r3)
                else
                  match takeDigits r1 with
                  | ([], _) => none
                  | (ds, r3) => some (e :: ds, r3)
              | [] => none
            else some ([], cs3)
          | [] => some ([], cs3)
        match expAndRest with
        | none => none
        | some (ep, cs4) => some (sign ++ ip ++ fp ++ ep, cs4)

/-- Array tail: elements separated by commas, closed by a bracket.
pv is the value parser for the current nesting budget. -/
def parseArrayAux (pv : List Char → Option (Json × List Char)) :
    Nat → List Json → List Char → Option (List Json × List Char)
  | 0, _, _ => none
  | fuel + 1, acc, cs =>
    match pv cs with
    | none => none
    | some (v, rest) =>
      match skipWs rest with
      | ',' :: r2 => parseArrayAux pv fuel (v :: acc) r2
      | ']' :: r2 => some ((v :: acc).reverse, r2)
      | _ => none

/-- Object tail: string keys, colons, values, separated by commas,
closed by a brace. -/
def parseObjAux (pv : List Char → Option (Json × List Char)) :
    Nat → List (String × Json) → List Char → Option (List (String × Json) × List Char)
  | 0, _, _ => none
  | fuel + 1, acc, cs =>
    match cs with
    | '"' :: rest =>
      match parseStringAux (rest.length + 1) [] rest with
      | none => none
      | some (k, r2) =>
        match skipWs r2 with
        | ':' :: r3 =>
          match pv r3 with
          | none => none
          | some (v, r4) =>
            match skipWs r4 with
            | ',' :: r5 => parseObjAux pv fuel ((k, v) :: acc) (skipWs r5)
            | '}' :: r5 => some (((k, v) :: acc).reverse, r5)
            | _ => none
        | _ => none
    | _ => none

/-- One JSON value, consuming leading whitespace.  The fuel bounds the
nesting depth; Json.parse supplies more fuel than any input can need. -/
def parseValue : Nat → List Char → Option (Json × List Char)
  | 0, _ => none
  | fuel + 1, cs =>
    match skipWs cs with
    | [] => none
    | 'n' :: 'u' :: 'l' :: 'l' :: rest => some (Json.null, rest)
    | 't' :: 'r' :: 'u' :: 'e' :: rest => some (Json.bool true, rest)
    | 'f' :: 'a' :: 'l' :: 's' :: 'e' :: rest => some (Json.bool false, rest)
    | '"' :: rest =>
      match parseStringAux (rest.length + 1) [] rest with
      | some (s, r2) => some (Json.str s, r2)
      | none => none
    | '[' :: rest =>
      match skipWs rest with
      | ']' :: r2 => some (Json.arr [], r2)
      | cs2 =>
        match parseArrayAux (parseValue fuel) (cs2.length + 1) [] cs2 with
        | some (es, r2) => some (Json.arr es, r2)
        | none => none
    | '{' :: rest =>
      match skipWs rest with
      | '}' :: r2 => some (Json.obj [], r2)
      | cs2 =>
        match parseObjAux (parseValue fuel) (cs2.length + 1) [] cs2 with
        | some (ms, r2) => some (Json.obj ms, r2)
        | none => none
    | c :: rest =>
      if c = '-' ∨ c.isDigit then
        match parseNumberLex (c :: rest) with
        | some (lex, r2) => some (Json.num (String.mk lex), r2)
        | none => none
      else none

/-- Model of JS JSON.parse: one value, surrounded only by whitespace;
anything else throws (returns none here). -/
def Json.parse (s : String) : Option Json :=
  match parseValue (s.length + 2) s.data with
  | some (v, rest) => if skipWs rest = [] then some v else none
  | none => none

/-! ## Extraction pipeline (extractInformation, part_000 lines 95-189) -/

/-- Property read on a parsed object: JS keeps the last duplicate key. -/
def objLookupLast (members : List (String × Json)) (k : String) : Option Json :=
  (members.reverse.find? (fun kv => kv.1 = k)).map (fun kv => kv.2)

/-- What reading a named field off the parsed value yields when it is a
string: absent key, null value and non-object receivers give none.
The prompt (lines 118-128) makes the model return string values for the
five keys; a non-string value under a key is outside every claim and is
modelled as absent. -/
def getStrField (v : Json) (k : String) : Option String :=
  match v with
  | Json.obj members =>
    match objLookupLast members k with
    | some (Json.str s) => some s
    | _ => none
  | _ => none

/-- The transient per-upload extraction result: the five requested keys
as read off the parsed JSON (ExtractedPayload, lines 6-12, with the
fields optional as in the merge at lines 173-180). -/
structure ExtractedPayload where
  fullName : Option String
  address : Option String
  year : Option String
  makeModel : Option String
  vin : Option String
deriving Repr, DecidableEq

def payloadOf (v : Json) : ExtractedPayload :=
  { fullName := getStrField v ("fullName")
    address := getStrField v ("address")
    year := getStrField v ("year")
    makeModel := getStrField v ("makeModel")
    vin := getStrField v ("vin") }

/-- The setFormData update at lines 173-180: each field is
extracted.field ?? prev.field (nullish coalescing: a present value, the
empty string included, is taken; an absent field keeps the prior value);
date := prev.date. -/
def mergeExtracted (prev : FormRecord) (e : ExtractedPayload) : FormRecord :=
  { fullName := e.fullName.getD prev.fullName
    address := e.address.getD prev.address
    year := e.year.getD prev.year
    makeModel := e.makeModel.getD prev.makeModel
    vin := e.vin.getD prev.vin
    date := prev.date }

/-- One content entry of the AI response (lines 151-155): only entries
of type text with a string text participate in textContent. -/
inductive ContentItem where
  | text : String → ContentItem
  | other : ContentItem
deriving Repr, DecidableEq

/-- The outcome of the extraction request as seen by the code: a thrown
error before a response (FileReader or fetch failure), a non-success
HTTP status (line 145), or a parsed response body whose content array
may be absent. -/
inductive ApiOutcome where
  | networkError : ApiOutcome
  | httpError : Nat → ApiOutcome
  | ok : Option (List ContentItem) → ApiOutcome
deriving Repr, DecidableEq

/-- JS String.prototype.trim, on the whitespace characters the claims
exercise (space, tab, line feed, carriage return): drop leading and
trailing whitespace.  Written structurally so that concrete inputs
evaluate inside the kernel. -/
def jsTrim (s : String) : String :=
  String.mk (((s.data.dropWhile Char.isWhitespace).reverse.dropWhile Char.isWhitespace).reverse)

/-- Lines 151-155: join the text of the text-typed content entries with
a line feed; an absent content array gives the empty string. -/
def textContentOf (content : Option (List ContentItem)) : String :=
  match content with
  | none => ""
  | some items =>
    String.intercalate ("\n")
      (items.filterMap (fun it =>
        match it with
        | ContentItem.text s => some s
        | ContentItem.other => none))

def backquote : Char := Char.ofNat 96

/-- The two alternatives of the replace regex at line 161, tried in
this order at every position. -/
def fenceJson : List Char := [backquote, backquote, backquote, 'j', 's', 'o', 'n']

def fenceBare : List Char := [backquote, backquote, backquote]

/-- Line 161: textContent.replace of every code-fence marker by the
empty string, scanning left to right. -/
def stripFencesAux : Nat → List Char → List Char
  | 0, cs => cs
  | fuel + 1, cs =>
    if fenceJson.isPrefixOf cs then stripFencesAux fuel (cs.drop 7)
    else if fenceBare.isPrefixOf cs then stripFencesAux fuel (cs.drop 3)
    else
      match cs with
      | [] => []
      | c :: rest => c :: stripFencesAux fuel rest

def stripFences (s : String) : String :=
  String.mk (stripFencesAux (s.length + 1) s.data)

/-- Line 168: cleanJson.match of a brace-delimited span.  The single
greedy alternative makes the match run from the first opening brace to
the last closing brace of the text, provided that closing brace comes
after the opening one; otherwise there is no match. -/
def braceMatch (s : String) : Option String :=
  match s.data.findIdx? (fun x => x = '{'), s.data.reverse.findIdx? (fun x => x = '}') with
  | some i, some jr =>
    let j := s.data.length - 1 - jr
    if i < j then some (String.mk ((s.data.drop i).take (j - i + 1))) else none
  | _, _ => none

/-- Lines 163-171: parse the cleaned text; on failure, parse the
brace-delimited match instead; none when both fail. -/
def parseWithSalvage (clean : String) : Option Json :=
  match Json.parse clean with
  | some v => some v
  | none =>
    match braceMatch clean with
    | none => none
    | some m => Json.parse m

/-- The user-visible message set on every extraction failure (line 185). -/
def genericErrorMsg : String :=
  "Could not extract information from this file. Please fill the form manually below."

/-- The component state the extraction pipeline writes: the form record,
the error string and the extraction-complete flag. -/
structure ExtractState where
  form : FormRecord
  error : String
  extractionComplete : Bool
deriving Repr, DecidableEq

/-- Every caught failure leaves the form as it was, sets the generic
message, and leaves extractionComplete false (handleFileUpload reset it
before the call and the catch path never sets it). -/
def failureState (prev : FormRecord) : ExtractState :=
  { form := prev, error := genericErrorMsg, extractionComplete := false }

def cleanedOf (content : Option (List ContentItem)) : String :=
  jsTrim (stripFences (textContentOf content))

/-- extractInformation, lines 95-189, as a state transition on the form
record.  The try body throws on a network failure, a non-success status,
empty text content (after trim, line 157) and when both parse attempts
fail; the catch sets the generic error.  A parse result of null makes
the state updater dereference null; this is modelled as the caught
TypeError, i.e. the failure state.  Otherwise the five fields are read
off the parsed value and merged. -/
def runExtraction (prev : FormRecord) (o : ApiOutcome) : ExtractState :=
  match o with
  | ApiOutcome.networkError => failureState prev
  | ApiOutcome.httpError _ => failureState prev
  | ApiOutcome.ok content =>
    if jsTrim (textContentOf content) = "" then failureState prev
    else
      match parseWithSalvage (cleanedOf content) with
      | none => failureState prev
      | some Json.null => failureState prev
      | some v =>
        { form := mergeExtracted prev (payloadOf v)
          error := ""
          extractionComplete := true }

/-! ## Upload validation (handleFileUpload, part_000 lines 58-79) -/

/-- allowedTypes, line 29. -/
def allowedTypes : List String :=
  ["application/pdf", "image/jpeg", "image/jpg", "image/png"]

/-- Line 63. -/
def uploadErrorMsg : String := "Please upload a PDF or image file (JPG/PNG)"

/-- The component state handleFileUpload touches. -/
structure UIState where
  form : FormRecord
  file : Option String
  error : String
  extractionComplete : Bool
deriving Repr, DecidableEq

/-- handleFileUpload on a selected file of the given declared media
type, up to the point where extractInformation is invoked.  The second
component counts the extraction invocations the upload makes
(extractEnabled, line 56, is constant true). -/
def handleFileUpload (mime : String) (st : UIState) : UIState × Nat :=
  if allowedTypes.contains mime then
    ({ st with file := some mime, error := "", extractionComplete := false }, 1)
  else
    ({ st with file := none, error := uploadErrorMsg, extractionComplete := false }, 0)

/-! ## Field edits and the VIN trigger (handleInputChange, lines 191-197) -/

inductive FormField where
  | fullName : FormField
  | address : FormField
  | year : FormField
  | makeModel : FormField
  | vin : FormField
  | date : FormField
deriving Repr, DecidableEq

def setField (prev : FormRecord) (fld : FormField) (v : String) : FormRecord :=
  match fld with
  | FormField.fullName => { prev with fullName := v }
  | FormField.address => { prev with address := v }
  | FormField.year => { prev with year := v }
  | FormField.makeModel => { prev with makeModel := v }
  | FormField.vin => { prev with vin := v }
  | FormField.date => { prev with date := v }

/-- handleInputChange: writes the edited field, and issues a VIN lookup
(second component) exactly when the edited field is vin and the new
value has length 17 (line 194). -/
def handleInputChange (prev : FormRecord) (fld : FormField) (v : String) : FormRecord × Bool :=
  (setField prev fld v, if fld = FormField.vin ∧ v.length = 17 then true else false)

/-! ## VIN enrichment (decodeVIN, part_000 lines 199-233) -/

/-- One entry of the lookup response results array: a Variable name and
an optional Value (the service sends null for absent data). -/
structure VinRow where
  varName : String
  value : Option String
deriving Repr, DecidableEq

def notApplicable : String := "Not Applicable"

/-- findValue, lines 209-210: the Value of the first row whose Variable
matches, with null or a missing row giving the empty string. -/
def findValue (results : List VinRow) (v : String) : String :=
  match results.find? (fun row => row.varName = v) with
  | some row => row.value.getD ""
  | none => ""

/-- The placeholder test the code applies at every step: JS falsiness of
the empty string, or the literal placeholder. -/
def naAbsent (s : String) : Prop := s = "" ∨ s = notApplicable

instance (s : String) : Decidable (naAbsent s) :=
  inferInstanceAs (Decidable (s = "" ∨ s = notApplicable))

/-- Lines 213-216: model candidate = Model, else Series, else Trim. -/
def deriveModel (results : List VinRow) : String :=
  let m1 := findValue results ("Model")
  let m2 := if naAbsent m1 then findValue results ("Series") else m1
  if naAbsent m2 then findValue results ("Trim") else m2

/-- Lines 220-222: the combined make-model string. -/
def makeModelString (results : List VinRow) : String :=
  let make := findValue results ("Make")
  let model := deriveModel results
  let s1 := if naAbsent make then "" else make
  if naAbsent model then s1
  else if s1 = "" then model
  else s1 ++ " " ++ model

/-- Lines 224-229: the setFormData update of a successful lookup.  vin
is set to the looked-up argument unconditionally; makeModel and year
only when the derived value survives the placeholder filter. -/
def decodeVINUpdate (vin : String) (results : List VinRow) (prev : FormRecord) : FormRecord :=
  let year := findValue results ("Model Year")
  let mm := makeModelString results
  { prev with
    vin := vin
    makeModel := if mm = "" then prev.makeModel else mm
    year := if year ≠ "" ∧ year ≠ notApplicable then year else prev.year }

/-! ## Document renderer (generatePDF, part_000 lines 235-373) -/

/-- months, line 237. -/
def monthNames : List String :=
  ["January", "February", "March", "April", "May", "June", "July",
   "August", "September", "October", "November", "December"]

structure YMD where
  year : Nat
  month : Nat
  day : Nat
deriving Repr, DecidableEq

def isLeapYear (y : Nat) : Bool :=
  (y % 4 = 0 && y % 100 ≠ 0) || y % 400 = 0

def monthLength (y m : Nat) : Nat :=
  if m = 2 then (if isLeapYear y then 29 else 28)
  else if m = 4 ∨ m = 6 ∨ m = 9 ∨ m = 11 then 30
  else 31

def prevCalendarDay (d : YMD) : YMD :=
  if 1 < d.day then { d with day := d.day - 1 }
  else if 1 < d.month then
    { d with month := d.month - 1, day := monthLength d.year (d.month - 1) }
  else { year := d.year - 1, month := 12, day := 31 }

def splitDashAux : List Char → List Char → List (List Char)
  | acc, [] => [acc.reverse]
  | acc, c :: rest =>
    if c = '-' then acc.reverse :: splitDashAux [] rest else splitDashAux (c :: acc) rest

def digitsToNatAux : Nat → List Char → Option Nat
  | acc, [] => some acc
  | acc, c :: rest =>
    if c.isDigit then digitsToNatAux (acc * 10 + (c.toNat - 48)) rest else none

def digitsToNat : List Char → Option Nat
  | [] => none
  | cs => digitsToNatAux 0 cs

/-- The stored date string is YYYY-MM-DD; new Date of such a string is
midnight UTC of that calendar day. -/
def parseISODate (s : String) : Option YMD :=
  match splitDashAux [] s.data with
  | [ys, ms, ds] =>
    match digitsToNat ys, digitsToNat ms, digitsToNat ds with
    | some y, some m, some d => some { year := y, month := m, day := d }
    | _, _, _ => none
  | _ => none

/-- The civil date the local-time accessors getFullYear, getMonth and
getDate report for midnight UTC, in a timezone at a fixed offset of
tz minutes from UTC (real offsets satisfy -720 ≤ tz ≤ 840, so the
local instant is on the same civil day when tz ≥ 0 and on the previous
one when tz < 0). -/
def localCivilDate (tz : Int) (d : YMD) : YMD :=
  if 0 ≤ tz then d else prevCalendarDay d

/-- Lines 237-239: months[getMonth()] ++ space ++ getDate() ++ comma ++
getFullYear(), for a renderer running at UTC offset tz.  An out-of-range
month index interpolates as the string undefined, as in JS. -/
def formattedDate (tz : Int) (dateStr : String) : Option String :=
  (parseISODate dateStr).map (fun d =>
    let l := localCivilDate tz d
    (monthNames.getD (l.month - 1) ("undefined")) ++ " " ++ toString l.day ++ ", " ++ toString l.year)

/-- Line 359: every maximal whitespace run becomes one underscore
(the replace of a one-or-more whitespace regex by an underscore). -/
def collapseWSAux : Bool → List Char → List Char
  | _, [] => []
  | inRun, c :: rest =>
    if c.isWhitespace then
      if inRun then collapseWSAux true rest
      else '_' :: collapseWSAux true rest
    else c :: collapseWSAux false rest

def collapseWS (s : String) : String :=
  String.mk (collapseWSAux false s.data)

/-- Line 359: the download file name.  The full name is trimmed first,
then whitespace runs are collapsed; an empty result falls back to
Customer. -/
def downloadName (fullName : String) : String :=
  let sanitized := collapseWS (jsTrim fullName)
  "Authorization_Letter_" ++ (if sanitized = "" then "Customer" else sanitized) ++ ".jpg"

/-- Line 513: the export button is inert exactly when the trimmed full
name is empty. -/
def exportDisabled (form : FormRecord) : Bool :=
  jsTrim form.fullName = ""

/-! ## Concrete values used by witnesses and counterexamples -/

def form0 : FormRecord :=
  { fullName := "Jane Doe"
    address := "123 Main St, Halifax"
    year := "2019"
    makeModel := "Honda Civic"
    vin := "1HGBH41JXMN109186"
    date := "2024-01-15" }

def vin17 : String := "1HGBH41JXMN109186"

def exEmptyNameJson : String := "\x7b\"fullName\":\"\"\x7d"

def exStringJson : String := "\"hello\""

def exTwoObjects : String := "x\x7b\"a\":\"1\"\x7d \x7b\"b\":\"2\"\x7d"

def exFirstObject : String := "\x7b\"a\":\"1\"\x7d"

def exSpan : String := "\x7b\"a\":\"1\"\x7d \x7b\"b\":\"2\"\x7d"

def vinResultsHonda : List VinRow :=
  [{ varName := "Make", value := some ("Honda") },
   { varName := "Model", value := some (notApplicable) },
   { varName := "Series", value := some ("Civic") }]

def vinResultsAllNA : List VinRow :=
  [{ varName := "Make", value := some (notApplicable) },
   { varName := "Model", value := some (notApplicable) },
   { varName := "Series", value := some (notApplicable) },
   { varName := "Trim", value := some (notApplicable) },
   { varName := "Model Year", value := some (notApplicable) }]

/-! ## Claim-side formalisations compared against the code -/

def parsesAsObj (s : String) : Bool :=
  match Json.parse s with
  | some (Json.obj _) => true
  | _ => false

def shortestObjPrefixFrom (cs : List Char) : Option String :=
  (List.range (cs.length + 1)).findSome? (fun k =>
    if parsesAsObj (String.mk (cs.take k)) then some (String.mk (cs.take k)) else none)

/-- Formalisation of the claim's salvage target, following its words:
the first top-level JSON object literal inside the cleaned text, i.e.
the shortest substring beginning at the earliest position that parses
as a JSON object.  The code's braceMatch is compared against this. -/
def firstObjectLiteralFrom : Nat → List Char → Option String
  | 0, _ => none
  | fuel + 1, cs =>
    match shortestObjPrefixFrom cs with
    | some s => some s
    | none =>
      match cs with
      | [] => none
      | _ :: rest => firstObjectLiteralFrom fuel rest

def firstObjectLiteral (s : String) : Option String :=
  firstObjectLiteralFrom (s.length + 1) s.data

/-! # Claim theorems -/

def ui0 : UIState :=
  { form := form0, file := none, error := "", extractionComplete := true }

/-- C10: a successful VIN lookup sets the vin field unconditionally to the
looked-up 17-character argument, for every prior form state, and leaves
fullName, address and date unchanged. -/
theorem c10_vin_frame :
    ∀ (vin : String) (results : List VinRow) (prev : FormRecord),
      (decodeVINUpdate vin results prev).vin = vin ∧
      (decodeVINUpdate vin results prev).fullName = prev.fullName ∧
      (decodeVINUpdate vin results prev).address = prev.address ∧
      (decodeVINUpdate vin results prev).date = prev.date :=
  fun _ _ _ => ⟨rfl, rfl, rfl, rfl⟩

/-- C6: an edit issues a VIN lookup exactly when the edited field is the
vin field and the new value is 17 characters long; shorter or longer
values, and edits of other fields, never issue one. -/
theorem c6_vin_trigger :
    (∀ (prev : FormRecord) (fld : FormField) (v : String),
        (handleInputChange prev fld v).2 = true ↔ (fld = FormField.vin ∧ v.length = 17)) ∧
    (∀ (prev : FormRecord) (v : String), v.length < 17 →
        (handleInputChange prev FormField.vin v).2 = false) ∧
    (∀ (prev : FormRecord) (v : String), 17 < v.length →
        (handleInputChange prev FormField.vin v).2 = false) ∧
    (∀ (prev : FormRecord) (fld : FormField) (v : String), fld ≠ FormField.vin →
        (handleInputChange prev fld v).2 = false) := by
  refine ⟨?_, ?_, ?_, ?_⟩
  · intro prev fld v
    by_cases h : fld = FormField.vin ∧ v.length = 17 <;> simp [handleInputChange, h]
  · intro prev v h
    have h17 : ¬ (v.length = 17) := by omega
    simp [handleInputChange, h17]
  · intro prev v h
    have h17 : ¬ (v.length = 17) := by omega
    simp [handleInputChange, h17]
  · intro prev fld v h
    simp [handleInputChange, h]

theorem c6_witness :
    (handleInputChange form0 FormField.vin vin17).2 = true ∧
    (handleInputChange form0 FormField.vin ("123")).2 = false ∧
    (handleInputChange form0 FormField.vin ("1HGBH41JXMN1091860")).2 = false :=
  ⟨(c6_vin_trigger.1 form0 FormField.vin vin17).mpr ⟨rfl, by decide⟩,
   c6_vin_trigger.2.1 form0 ("123") (by decide),
   c6_vin_trigger.2.2.1 form0 ("1HGBH41JXMN1091860") (by decide)⟩

/-- C5: an upload whose declared media type is outside the accepted set
sets the user-visible error, leaves the form record unchanged and never
invokes extraction; an accepted type clears the error and the
extraction-complete flag and invokes extraction exactly once. -/
theorem c5_upload_validation :
    (∀ mime : String, allowedTypes.contains mime = true ↔
        (mime = "application/pdf" ∨ mime = "image/jpeg" ∨ mime = "image/jpg" ∨ mime = "image/png")) ∧
    (∀ (mime : String) (st : UIState), allowedTypes.contains mime = false →
        (handleFileUpload mime st).1.form = st.form ∧
        (handleFileUpload mime st).1.error = uploadErrorMsg ∧
        (handleFileUpload mime st).2 = 0) ∧
    (∀ (mime : String) (st : UIState), allowedTypes.contains mime = true →
        (handleFileUpload mime st).1.form = st.form ∧
        (handleFileUpload mime st).1.error = "" ∧
        (handleFileUpload mime st).1.extractionComplete = false ∧
        (handleFileUpload mime st).2 = 1) := by
  refine ⟨?_, ?_, ?_⟩
  · intro mime
    simp [allowedTypes]
  · intro mime st h
    have h' : ¬ (mime ∈ allowedTypes) := by simpa using h
    simp [handleFileUpload, h']
  · intro mime st h
    have h' : mime ∈ allowedTypes := by simpa using h
    simp [handleFileUpload, h']

theorem c5_witness :
    (handleFileUpload ("text/plain") ui0).1.form = ui0.form ∧
    (handleFileUpload ("text/plain") ui0).2 = 0 ∧
    (handleFileUpload ("image/png") ui0).2 = 1 :=
  ⟨(c5_upload_validation.2.1 ("text/plain") ui0 (by decide)).1,
   (c5_upload_validation.2.1 ("text/plain") ui0 (by decide)).2.2,
   (c5_upload_validation.2.2 ("image/png") ui0 (by decide)).2.2.2⟩

/-- C4: every failure path of the extraction pipeline (thrown request
error, non-success status, empty or absent text content, both parse
attempts failing) yields the one generic error message and leaves every
field of the form record as it was. -/
theorem c4_failure_paths :
    (∀ prev : FormRecord, runExtraction prev ApiOutcome.networkError = failureState prev) ∧
    (∀ (prev : FormRecord) (s : Nat), runExtraction prev (ApiOutcome.httpError s) = failureState prev) ∧
    (∀ (prev : FormRecord) (content : Option (List ContentItem)),
        jsTrim (textContentOf content) = "" →
        runExtraction prev (ApiOutcome.ok content) = failureState prev) ∧
    (∀ (prev : FormRecord) (content : Option (List ContentItem)),
        parseWithSalvage (cleanedOf content) = none →
        runExtraction prev (ApiOutcome.ok content) = failureState prev) ∧
    (∀ prev : FormRecord,
        (failureState prev).form = prev ∧ (failureState prev).error = genericErrorMsg) := by
  refine ⟨fun _ => rfl, fun _ _ => rfl, ?_, ?_, fun _ => ⟨rfl, rfl⟩⟩
  · intro prev content h
    simp [runExtraction, h]
  · intro prev content h
    by_cases he : jsTrim (textContentOf content) = "" <;> simp [runExtraction, he, h]

theorem c4_witness :
    runExtraction form0 (ApiOutcome.ok (some [])) = failureState form0 :=
  c4_failure_paths.2.2.1 form0 (some []) rfl

/-- C1 counterexample: the merge at part_000 lines 173-180 uses nullish
coalescing, so a successfully parsed result carrying an explicit empty
string for fullName overrides the prior non-empty value instead of
retaining it, contradicting the claim as stated. -/
theorem c1_counterexample :
    (runExtraction form0 (ApiOutcome.ok (some [ContentItem.text exEmptyNameJson]))).form.fullName = "" ∧
    form0.fullName = "Jane Doe" ∧
    (runExtraction form0 (ApiOutcome.ok (some [ContentItem.text exEmptyNameJson]))).form.fullName ≠
      form0.fullName := by
  refine ⟨?_, rfl, ?_⟩ <;> decide

/-- C1 amended: the merge sets each of the five fields to the extracted
value whenever that field is present in the parsed result, the empty
string included, and retains the prior value exactly when the field is
absent; the date field is unchanged. -/
theorem c1_amended :
    ∀ (prev : FormRecord) (e : ExtractedPayload),
      (mergeExtracted prev e).date = prev.date ∧
      (∀ s, e.fullName = some s → (mergeExtracted prev e).fullName = s) ∧
      (e.fullName = none → (mergeExtracted prev e).fullName = prev.fullName) ∧
      (∀ s, e.address = some s → (mergeExtracted prev e).address = s) ∧
      (e.address = none → (mergeExtracted prev e).address = prev.address) ∧
      (∀ s, e.year = some s → (mergeExtracted prev e).year = s) ∧
      (e.year = none → (mergeExtracted prev e).year = prev.year) ∧
      (∀ s, e.makeModel = some s → (mergeExtracted prev e).makeModel = s) ∧
      (e.makeModel = none → (mergeExtracted prev e).makeModel = prev.makeModel) ∧
      (∀ s, e.vin = some s → (mergeExtracted prev e).vin = s) ∧
      (e.vin = none → (mergeExtracted prev e).vin = prev.vin) := by
  intro prev e
  refine ⟨rfl, ?_, ?_, ?_, ?_, ?_, ?_, ?_, ?_, ?_, ?_⟩ <;>
    first
      | (intro s h; simp [mergeExtracted, h])
      | (intro h; simp [mergeExtracted, h])

def payloadEmptyName : ExtractedPayload :=
  { fullName := some (""), address := none, year := none, makeModel := none, vin := none }

theorem c1_witness :
    (mergeExtracted form0 payloadEmptyName).fullName = "" ∧
    (mergeExtracted form0 payloadEmptyName).address = form0.address ∧
    (mergeExtracted form0 payloadEmptyName).date = form0.date :=
  ⟨(c1_amended form0 payloadEmptyName).2.1 ("") rfl,
   (c1_amended form0 payloadEmptyName).2.2.2.2.1 rfl,
   (c1_amended form0 payloadEmptyName).1⟩

/-- C2: the model candidate is Model, else Series, else Trim, with the
empty string and the placeholder treated as absent at each step; the
combined make-model string is make alone, model alone, or both joined
by a space; the lookup update always sets vin, sets makeModel only when
the combined string is non-empty, sets year only when the derived year
survives the placeholder filter, and otherwise retains the prior
values; an all-placeholder response changes nothing but vin, and a
response with Make Honda, Model placeholder, Series Civic combines to
Honda Civic. -/
theorem c2_vin_enrichment :
    (∀ results : List VinRow,
        (¬ naAbsent (findValue results ("Model")) →
            deriveModel results = findValue results ("Model")) ∧
        (naAbsent (findValue results ("Model")) → ¬ naAbsent (findValue results ("Series")) →
            deriveModel results = findValue results ("Series")) ∧
        (naAbsent (findValue results ("Model")) → naAbsent (findValue results ("Series")) →
            deriveModel results = findValue results ("Trim"))) ∧
    (∀ results : List VinRow,
        makeModelString results =
          (let a := if naAbsent (findValue results ("Make")) then "" else findValue results ("Make")
           let b := if naAbsent (deriveModel results) then "" else deriveModel results
           if b = "" then a else if a = "" then b else a ++ " " ++ b)) ∧
    (∀ (vin : String) (results : List VinRow) (prev : FormRecord),
        (decodeVINUpdate vin results prev).vin = vin ∧
        (makeModelString results ≠ "" →
            (decodeVINUpdate vin results prev).makeModel = makeModelString results) ∧
        (makeModelString results = "" →
            (decodeVINUpdate vin results prev).makeModel = prev.makeModel) ∧
        (findValue results ("Model Year") ≠ "" → findValue results ("Model Year") ≠ notApplicable →
            (decodeVINUpdate vin results prev).year = findValue results ("Model Year")) ∧
        (naAbsent (findValue results ("Model Year")) →
            (decodeVINUpdate vin results prev).year = prev.year)) ∧
    (∀ (vin : String) (results : List VinRow) (prev : FormRecord),
        findValue results ("Make") = notApplicable →
        findValue results ("Model") = notApplicable →
        findValue results ("Series") = notApplicable →
        findValue results ("Trim") = notApplicable →
        findValue results ("Model Year") = notApplicable →
        (decodeVINUpdate vin results prev).makeModel = prev.makeModel ∧
        (decodeVINUpdate vin results prev).year = prev.year ∧
        (decodeVINUpdate vin results prev).vin = vin) ∧
    (∀ (vin : String) (results : List VinRow) (prev : FormRecord),
        findValue results ("Make") = "Honda" →
        findValue results ("Model") = notApplicable →
        findValue results ("Series") = "Civic" →
        (decodeVINUpdate vin results prev).makeModel = "Honda Civic") := by
  have hNA : naAbsent notApplicable := Or.inr rfl
  refine ⟨?_, ?_, ?_, ?_, ?_⟩
  · intro results
    refine ⟨?_, ?_, ?_⟩
    · intro h
      simp [deriveModel, h]
    · intro h1 h2
      simp [deriveModel, h1, h2]
    · intro h1 h2
      simp [deriveModel, h1, h2]
  · intro results
    by_cases hm : naAbsent (deriveModel results)
    · by_cases ha : naAbsent (findValue results ("Make")) <;>
        simp [makeModelString, hm, ha]
    · have hne : deriveModel results ≠ "" := fun h => hm (Or.inl h)
      by_cases ha : naAbsent (findValue results ("Make"))
      · simp [makeModelString, hm, ha, hne]
      · have hane : findValue results ("Make") ≠ "" := fun h => ha (Or.inl h)
        simp [makeModelString, hm, ha, hne, hane]
  · intro vin results prev
    refine ⟨rfl, ?_, ?_, ?_, ?_⟩
    · intro h
      simp [decodeVINUpdate, h]
    · intro h
      simp [decodeVINUpdate, h]
    · intro h1 h2
      simp [decodeVINUpdate, h1, h2]
    · intro h
      rcases h with h | h <;> simp [decodeVINUpdate, h]
  · intro vin results prev h1 h2 h3 h4 h5
    have hd : deriveModel results = notApplicable := by
      simp [deriveModel, h2, h3, h4, hNA]
    have hmm : makeModelString results = "" := by
      simp [makeModelString, hd, h1, hNA]
    refine ⟨?_, ?_, rfl⟩
    · simp [decodeVINUpdate, hmm]
    · simp [decodeVINUpdate, h5]
  · intro vin results prev h1 h2 h3
    have hCivic : ¬ naAbsent ("Civic") := by decide
    have hHonda : ¬ naAbsent ("Honda") := by decide
    have hd : deriveModel results = "Civic" := by
      simp [deriveModel, h2, h3, hNA, hCivic]
    have hmm : makeModelString results = "Honda Civic" := by
      simp [makeModelString, hd, h1, hHonda, hCivic]
    simp [decodeVINUpdate, hmm]

theorem c2_witness :
    (decodeVINUpdate vin17 vinResultsHonda form0).makeModel = "Honda Civic" ∧
    (decodeVINUpdate vin17 vinResultsAllNA form0).year = form0.year ∧
    (decodeVINUpdate vin17 vinResultsAllNA form0).vin = vin17 :=
  ⟨c2_vin_enrichment.2.2.2.2 vin17 vinResultsHonda form0 (by decide) (by decide) (by decide),
   (c2_vin_enrichment.2.2.2.1 vin17 vinResultsAllNA form0 (by decide) (by decide) (by decide)
      (by decide) (by decide)).2.1,
   (c2_vin_enrichment.2.2.2.1 vin17 vinResultsAllNA form0 (by decide) (by decide) (by decide)
      (by decide) (by decide)).2.2⟩

/-- C3 counterexample: on a cleaned text holding two object literals,
the greedy brace match runs from the first opening brace to the last
closing brace, spanning both objects; that span is not valid JSON, so
the code reports failure, although the first top-level object literal
of the text parses successfully, which is what the claim says the
salvage parses. -/
theorem c3_counterexample :
    (Json.parse exTwoObjects).isNone = true ∧
    firstObjectLiteral exTwoObjects = some exFirstObject ∧
    (Json.parse exFirstObject).isSome = true ∧
    braceMatch exTwoObjects = some exSpan ∧
    (Json.parse exSpan).isNone = true ∧
    runExtraction form0 (ApiOutcome.ok (some [ContentItem.text exTwoObjects])) = failureState form0 := by
  refine ⟨?_, ?_, ?_, ?_, ?_, ?_⟩ <;> decide

/-- C3 amended: if parsing the cleaned text fails, the pipeline parses
the greedy brace-delimited match instead, the span from the first
opening brace to the last closing brace of the cleaned text; the
extraction is reported as failed exactly on the paths where that
salvage also fails to match or parse, and succeeds with the merged
fields whenever either parse yields a non-null value. -/
theorem c3_amended :
    (∀ clean : String, Json.parse clean = none →
        parseWithSalvage clean = (braceMatch clean).bind Json.parse) ∧
    (∀ (prev : FormRecord) (content : Option (List ContentItem)),
        jsTrim (textContentOf content) ≠ "" →
        parseWithSalvage (cleanedOf content) = none →
        runExtraction prev (ApiOutcome.ok content) = failureState prev) ∧
    (∀ (prev : FormRecord) (content : Option (List ContentItem)) (v : Json),
        jsTrim (textContentOf content) ≠ "" →
        parseWithSalvage (cleanedOf content) = some v →
        v ≠ Json.null →
        runExtraction prev (ApiOutcome.ok content) =
          { form := mergeExtracted prev (payloadOf v), error := "", extractionComplete := true }) := by
  refine ⟨?_, ?_, ?_⟩
  · intro clean h
    simp only [parseWithSalvage, h]
    cases braceMatch clean <;> simp
  · intro prev content h1 h2
    simp [runExtraction, h1, h2]
  · intro prev content v h1 h2 hnull
    cases v with
    | null => exact absurd rfl hnull
    | bool b => simp [runExtraction, h1, h2]
    | num s => simp [runExtraction, h1, h2]
    | str s => simp [runExtraction, h1, h2]
    | arr l => simp [runExtraction, h1, h2]
    | obj ms => simp [runExtraction, h1, h2]

theorem c3_witness :
    parseWithSalvage exTwoObjects = (braceMatch exTwoObjects).bind Json.parse ∧
    runExtraction form0 (ApiOutcome.ok (some [ContentItem.text exEmptyNameJson])) =
      { form := mergeExtracted form0 (payloadOf (Json.obj [("fullName", Json.str (""))])),
        error := "", extractionComplete := true } :=
  ⟨c3_amended.1 exTwoObjects rfl,
   c3_amended.2.2 form0 (some [ContentItem.text exEmptyNameJson])
     (Json.obj [("fullName", Json.str (""))]) (by decide) rfl
     (fun h => Json.noConfusion h)⟩

/-- C7: generatePDF builds the rendered date from new Date of the
stored ISO string, which is midnight UTC, but reads it back with
local-time accessors; at UTC the example renders as the claim says, yet
at any negative UTC offset, the app region America/Halifax at UTC-4
included, the previous calendar day is rendered, contradicting the
documented example. -/
theorem c7_date_render_bug :
    formattedDate 0 ("2024-03-05") = some ("March 5, 2024") ∧
    formattedDate (-240) ("2024-03-05") = some ("March 4, 2024") ∧
    formattedDate (-240) ("2024-03-05") ≠ formattedDate 0 ("2024-03-05") := by
  refine ⟨?_, ?_, ?_⟩ <;> decide

def spacedName : String := " Jane "

/-- C8 counterexample: the code trims the full name before collapsing
whitespace runs, so a name with leading and trailing whitespace, for
which the export control is enabled, is exported without the leading
and trailing underscores the claimed collapse-only sanitization would
produce. -/
theorem c8_counterexample :
    downloadName spacedName = "Authorization_Letter_Jane.jpg" ∧
    collapseWS spacedName = "_Jane_" ∧
    ("Authorization_Letter_" ++ collapseWS spacedName ++ ".jpg") = "Authorization_Letter__Jane_.jpg" ∧
    downloadName spacedName ≠ "Authorization_Letter_" ++ collapseWS spacedName ++ ".jpg" ∧
    exportDisabled { form0 with fullName := spacedName } = false := by
  refine ⟨?_, ?_, ?_, ?_, ?_⟩ <;> decide

/-- C8 amended: the download is named from the trimmed full name with
whitespace runs collapsed to underscores, falling back to the default
Customer when that sanitized name is empty; the export control is
disabled exactly when the trimmed full name is empty, i.e. when the
full name is empty or whitespace-only. -/
theorem c8_amended :
    (∀ s : String, collapseWS (jsTrim s) = "" →
        downloadName s = "Authorization_Letter_Customer.jpg") ∧
    (∀ s : String, collapseWS (jsTrim s) ≠ "" →
        downloadName s = "Authorization_Letter_" ++ collapseWS (jsTrim s) ++ ".jpg") ∧
    (∀ form : FormRecord, exportDisabled form = true ↔ jsTrim form.fullName = "") := by
  refine ⟨?_, ?_, ?_⟩
  · intro s h
    simp [downloadName, h]
  · intro s h
    simp [downloadName, h]
  · intro form
    simp [exportDisabled]

theorem c8_witness :
    downloadName ("") = "Authorization_Letter_Customer.jpg" ∧
    downloadName ("   ") = "Authorization_Letter_Customer.jpg" ∧
    downloadName spacedName = "Authorization_Letter_" ++ collapseWS (jsTrim spacedName) ++ ".jpg" :=
  ⟨c8_amended.1 ("") rfl,
   c8_amended.1 ("   ") rfl,
   c8_amended.2.1 spacedName (by decide)⟩

theorem mergeExtracted_empty (prev : FormRecord) :
    mergeExtracted prev
      { fullName := none, address := none, year := none, makeModel := none, vin := none } = prev := by
  cases prev
  rfl

/-- C9: when the cleaned text parses as a JSON value that is neither an
object nor null, the extraction is a success: every requested field is
absent, the prior form values are all retained, no error is surfaced
and the extraction-complete flag is set. -/
theorem c9_nonobject_success :
    ∀ (prev : FormRecord) (content : Option (List ContentItem)) (v : Json),
      jsTrim (textContentOf content) ≠ "" →
      Json.parse (cleanedOf content) = some v →
      v ≠ Json.null →
      (∀ ms, v ≠ Json.obj ms) →
      payloadOf v = { fullName := none, address := none, year := none, makeModel := none, vin := none } ∧
      runExtraction prev (ApiOutcome.ok content) =
        { form := prev, error := "", extractionComplete := true } := by
  intro prev content v h1 hp hnull hobj
  have hsalv : parseWithSalvage (cleanedOf content) = some v := by
    simp [parseWithSalvage, hp]
  cases v with
  | null => exact absurd rfl hnull
  | obj ms => exact absurd rfl (hobj ms)
  | bool b => exact ⟨rfl, by simp [runExtraction, h1, hsalv, payloadOf, getStrField, mergeExtracted_empty]⟩
  | num s => exact ⟨rfl, by simp [runExtraction, h1, hsalv, payloadOf, getStrField, mergeExtracted_empty]⟩
  | str s => exact ⟨rfl, by simp [runExtraction, h1, hsalv, payloadOf, getStrField, mergeExtracted_empty]⟩
  | arr l => exact ⟨rfl, by simp [runExtraction, h1, hsalv, payloadOf, getStrField, mergeExtracted_empty]⟩

theorem c9_witness :
    runExtraction form0 (ApiOutcome.ok (some [ContentItem.text exStringJson])) =
      { form := form0, error := "", extractionComplete := true } :=
  (c9_nonobject_success form0 (some [ContentItem.text exStringJson]) (Json.str ("hello"))
    (by decide) rfl (fun h => Json.noConfusion h) (fun ms h => Json.noConfusion h)).2
